import Mathlib

/- Verification development for the launcher (launcher.py): a shallow
   embedding of the version-resolution and artifact-acquisition engine.
   File contents are modelled symbolically by an inductive `FileData`;
   the SHA-1 digest is an arbitrary function parameter `sha1` applied to
   a file's content (`verify_hash` compares its result with the expected
   hex digest); the HTTP layer is a function `net` from full URLs to
   `Option` response bodies, `none` meaning an error status (so that
   `raise_for_status` raises). Network requests performed are accumulated
   in a `reqs` trace. -/

namespace Launcher

/-- `MINECRAFT_DIR` constant of the source; `os.path.expanduser` is
modelled as the literal path. -/
def MINECRAFT_DIR : String := "~/.minecraft"

def LIBRARIES_DIR : String := MINECRAFT_DIR ++ "/libraries"

def VERSIONS_DIR : String := MINECRAFT_DIR ++ "/versions"

def ASSETS_DIR : String := MINECRAFT_DIR ++ "/assets"

def NATIVES_DIR : String := MINECRAFT_DIR ++ "/natives"

/-- The rewriting proxy endpoint (`PROXY_PREFIX` in the source): the
remote URL is appended verbatim. -/
def PROXY_BASE : String := "https://download-prx.izziefinnegan.workers.dev/?url="

/-- `os.path.join` for the paths the launcher builds (always relative
components, no absolute overrides). -/
def pathJoin (a b : String) : String := a ++ "/" ++ b

/-- A `{url, sha1}` download record (`downloads.client`, `assetIndex`). -/
structure DownloadInfo where
  url : String
  sha1 : Option String
deriving DecidableEq

/-- A `{path, url, sha1}` artifact record (`downloads.artifact` and each
classifier entry). -/
structure Artifact where
  path : String
  url : String
  sha1 : Option String
deriving DecidableEq

/-- One entry of `version_data["libraries"]`: an optional plain artifact
and a classifier mapping (key -> artifact record). -/
structure Library where
  artifact : Option Artifact
  classifiers : List (String × Artifact)
deriving DecidableEq

/-- One value of the asset index's `objects` mapping. -/
structure AssetObj where
  hash : String
deriving DecidableEq

/-- One entry of the version manifest's `versions` array. -/
structure ManifestEntry where
  id : String
  url : String
deriving DecidableEq

/-- A launch profile record. -/
structure Profile where
  username : String
  version : String
  xms : String
  xmx : String
deriving DecidableEq

/-- The parsed per-version JSON: the fields the launcher consumes.
`mainClassName` models the `mainClass` field. -/
structure VersionData where
  client : DownloadInfo
  libraries : List Library
  assetIndex : DownloadInfo
  mainClassName : String
deriving DecidableEq

/-- Symbolic file contents. `raw` is uninterpreted bytes; the other
constructors are files whose JSON parses to the given structure; a file
that `json.load` cannot parse into the shape a caller consumes is any
`FileData` of the wrong constructor. A `zip` is an archive with an entry
list (entry name as path components, entry bytes). -/
inductive FileData where
  | raw : List Nat → FileData
  | manifest : List ManifestEntry → FileData
  | version : VersionData → FileData
  | assetIndex : List (String × AssetObj) → FileData
  | zip : List (List String × List Nat) → FileData
  | profilesDoc : String → List (String × Profile) → FileData
deriving DecidableEq

/-- The files on disk: association of absolute path to content. -/
abbrev FS := List (String × FileData)

def flookup : FS → String → Option FileData
  | [], _ => none
  | e :: rest, q => if e.1 = q then some e.2 else flookup rest q

def ferase : FS → String → FS
  | [], _ => []
  | e :: rest, p => if e.1 = p then ferase rest p else e :: ferase rest p

/-- Writing a file truncates/overwrites (`open(dest, "wb")`). -/
def fwrite (fs : FS) (p : String) (d : FileData) : FS :=
  (p, d) :: ferase fs p

/-- State of the shared natives directory: the set of directories that
exist under it and the files in it, both keyed by path components
relative to the natives directory. -/
structure NatDir where
  dirs : List (List String)
  files : List (List String × List Nat)
deriving DecidableEq

/-- The launcher's mutable world: the file system, the natives
directory, and the trace of network requests issued. -/
structure St where
  fs : FS
  natives : NatDir
  reqs : List String
deriving DecidableEq

inductive LauncherError where
  | networkError
  | versionNotFound (id : String)
  | malformed
  | invalidArchive
  | ioError
deriving DecidableEq

/-- Lines 55-61 of `proxy_download`: build the proxied URL, issue the
request, fail on an HTTP error status (`raise_for_status`) before the
destination is opened for writing, else stream the body to `dest`.
(`os.makedirs` creates directories only; directory structure outside the
natives dir is not tracked.) -/
def proxy_fetch (net : String → Option FileData) (url dest : String) (st : St) :
    St × Option LauncherError :=
  match net (PROXY_BASE ++ url) with
  | none => ({ st with reqs := st.reqs ++ [PROXY_BASE ++ url] }, some .networkError)
  | some body =>
      ({ st with fs := fwrite st.fs dest body,
                 reqs := st.reqs ++ [PROXY_BASE ++ url] }, none)

/-- `proxy_download(url, dest, expected_hash)`: if `dest` exists and a
hash is declared and `verify_hash` succeeds, return; if `dest` exists
and no hash is declared, return; otherwise download through the proxy.
`verify_hash(dest, h)` is `sha1 (content of dest) = h`. -/
def proxy_download (sha1 : FileData → String) (net : String → Option FileData)
    (url dest : String) (expected_hash : Option String) (st : St) :
    St × Option LauncherError :=
  match flookup st.fs dest with
  | some d =>
      match expected_hash with
      | some h => if sha1 d = h then (st, none) else proxy_fetch net url dest st
      | none => (st, none)
  | none => proxy_fetch net url dest st

/-- Python's `s.endswith(suffix)`, computed on the character lists. -/
def strEndsWith (s suffix : String) : Bool :=
  List.isPrefixOf suffix.data.reverse s.data.reverse

/-- Whether an archive entry name (as path components) ends in one of
the three recognized shared-library suffixes; matches the source's
`name.endswith(ext) for ext in [".dll", ".so", ".dylib"]` on the full
name string, since none of the suffixes contains a slash. -/
def isNative (name : List String) : Bool :=
  match name.getLast? with
  | some s => strEndsWith s ".dll" || strEndsWith s ".so" || strEndsWith s ".dylib"
  | none => false

/-- `os.path.basename` on a component path. -/
def basename (name : List String) : String :=
  match name.getLast? with
  | some s => s
  | none => ""

/-- The intermediate directories `zipfile.ZipFile.extract` creates for
an entry: every proper nonempty prefix of its component path. -/
def properDirs : List String → List (List String)
  | [] => []
  | [_] => []
  | a :: b :: rest => [a] :: (properDirs (b :: rest)).map (a :: ·)

def ndLookup : List (List String × List Nat) → List String → Option (List Nat)
  | [], _ => none
  | e :: rest, q => if e.1 = q then some e.2 else ndLookup rest q

def ndErase : List (List String × List Nat) → List String → List (List String × List Nat)
  | [], _ => []
  | e :: rest, p => if e.1 = p then ndErase rest p else e :: ndErase rest p

def ndWrite (files : List (List String × List Nat)) (p : List String) (b : List Nat) :
    List (List String × List Nat) :=
  (p, b) :: ndErase files p

/-- The body of the `for name in z.namelist()` loop for one entry:
if the entry matches a native suffix, `z.extract(name, target)` (create
the intermediate directories and the file at its full internal path)
then `shutil.move` it to its flat base name (removing the file from the
full path and overwriting any file already at the base name). -/
def extractOne (nd : NatDir) (e : List String × List Nat) : NatDir :=
  if isNative e.1 then
    { dirs := properDirs e.1 ++ nd.dirs,
      files := ndWrite (ndErase (ndWrite nd.files e.1 e.2) e.1) [basename e.1] e.2 }
  else nd

def extractEntries (entries : List (List String × List Nat)) (nd : NatDir) : NatDir :=
  entries.foldl extractOne nd

/-- `extract_natives(jar, target)`: open the archive at `jar` (a file
that is not a zip raises `BadZipFile`), then process every entry in
order. The target directory is the `NatDir` state. -/
def extract_natives (fs : FS) (jar : String) (nd : NatDir) : NatDir × Option LauncherError :=
  match flookup fs jar with
  | some (.zip entries) => (extractEntries entries nd, none)
  | _ => (nd, some .invalidArchive)

/-- Occurrence of `pat` as a contiguous sublist. -/
def occursIn (pat : List Char) : List Char → Bool
  | [] => pat.isEmpty
  | c :: rest => List.isPrefixOf pat (c :: rest) || occursIn pat rest

/-- Python's `"natives" in key` substring test. -/
def hasNatives (key : String) : Bool :=
  occursIn "natives".data key.data

def version_manifest_path : String := pathJoin MINECRAFT_DIR "version_manifest.json"

def manifest_url : String := "https://launchermeta.mojang.com/mc/game/version_manifest.json"

def version_folder (vid : String) : String := pathJoin VERSIONS_DIR vid

def version_json_file (vid : String) : String := pathJoin (version_folder vid) (vid ++ ".json")

def client_jar_path (vid : String) : String := pathJoin (version_folder vid) (vid ++ ".jar")

def index_file_path (vid : String) : String :=
  pathJoin (pathJoin ASSETS_DIR "indexes") (vid ++ ".json")

def asset_obj_path (h : String) : String :=
  pathJoin (pathJoin (pathJoin ASSETS_DIR "objects") (h.take 2)) h

def asset_obj_url (h : String) : String :=
  "https://resources.download.minecraft.net/" ++ h.take 2 ++ "/" ++ h

/-- The classifier part of the library loop (lines 101-106): for every
classifier entry whose key contains "natives", download it (hash-pinned
when a sha1 is declared) and immediately extract it into the shared
natives directory; any failure aborts the whole resolution. -/
def classifiersStep (sha1 : FileData → String) (net : String → Option FileData) :
    List (String × Artifact) → St → St × Option LauncherError
  | [], st => (st, none)
  | c :: rest, st =>
      if hasNatives c.1 then
        match proxy_download sha1 net c.2.url (pathJoin LIBRARIES_DIR c.2.path) c.2.sha1 st with
        | (st', some err) => (st', some err)
        | (st', none) =>
            match extract_natives st'.fs (pathJoin LIBRARIES_DIR c.2.path) st'.natives with
            | (nd, some err) => ({ st' with natives := nd }, some err)
            | (nd, none) => classifiersStep sha1 net rest { st' with natives := nd }
      else classifiersStep sha1 net rest st

/-- One iteration of the `for lib in version_data["libraries"]` loop
(lines 95-106): the plain artifact, then the classifiers. -/
def libStep (sha1 : FileData → String) (net : String → Option FileData)
    (lib : Library) (st : St) : St × Option LauncherError :=
  match (match lib.artifact with
         | some a => proxy_download sha1 net a.url (pathJoin LIBRARIES_DIR a.path) a.sha1 st
         | none => (st, none)) with
  | (st', some err) => (st', some err)
  | (st', none) => classifiersStep sha1 net lib.classifiers st'

def libsStep (sha1 : FileData → String) (net : String → Option FileData) :
    List Library → St → St × Option LauncherError
  | [], st => (st, none)
  | lib :: rest, st =>
      match libStep sha1 net lib st with
      | (st', some err) => (st', some err)
      | (st', none) => libsStep sha1 net rest st'

/-- The asset-object loop (lines 115-118): for every object of the
asset index, its storage path and download URL are derived from its
content hash (two-character shard), and the hash is the expected
digest. -/
def assetsStep (sha1 : FileData → String) (net : String → Option FileData) :
    List (String × AssetObj) → St → St × Option LauncherError
  | [], st => (st, none)
  | o :: rest, st =>
      match proxy_download sha1 net (asset_obj_url o.2.hash) (asset_obj_path o.2.hash)
              (some o.2.hash) st with
      | (st', some err) => (st', some err)
      | (st', none) => assetsStep sha1 net rest st'

inductive ResolveResult where
  | ok (vd : VersionData)
  | err (e : LauncherError)
deriving DecidableEq

/-- Lines 108-118 of `ensure_version_installed`: parse the asset index
just ensured on disk (a wrong shape fails `json.load`/key access:
`malformed`) and download every referenced object. -/
def resolveAssets (sha1 : FileData → String) (net : String → Option FileData)
    (version_id : String) (version_data : VersionData) (st5 : St) : St × ResolveResult :=
  match flookup st5.fs (index_file_path version_id) with
  | some (.assetIndex objects) =>
      match assetsStep sha1 net objects st5 with
      | (st6, some e) => (st6, .err e)
      | (st6, none) => (st6, .ok version_data)
  | some _ => (st5, .err .malformed)
  | none => (st5, .err .ioError)

/-- Lines 89-112 of `ensure_version_installed`: client jar, the library
loop, the asset index, then the asset objects. -/
def resolveFromData (sha1 : FileData → String) (net : String → Option FileData)
    (version_id : String) (version_data : VersionData) (st2 : St) : St × ResolveResult :=
  match proxy_download sha1 net version_data.client.url
          (client_jar_path version_id) version_data.client.sha1 st2 with
  | (st3, some e) => (st3, .err e)
  | (st3, none) =>
      match libsStep sha1 net version_data.libraries st3 with
      | (st4, some e) => (st4, .err e)
      | (st4, none) =>
          match proxy_download sha1 net version_data.assetIndex.url
                  (index_file_path version_id) version_data.assetIndex.sha1 st4 with
          | (st5, some e) => (st5, .err e)
          | (st5, none) => resolveAssets sha1 net version_id version_data st5

/-- Lines 81-87 of `ensure_version_installed`: ensure the per-version
JSON is present (no hash available at this layer) and parse it. -/
def resolveFromInfo (sha1 : FileData → String) (net : String → Option FileData)
    (version_id : String) (version_info : ManifestEntry) (st1 : St) : St × ResolveResult :=
  match (if flookup st1.fs (version_json_file version_id) = none
         then proxy_download sha1 net version_info.url (version_json_file version_id) none st1
         else (st1, none)) with
  | (st2, some e) => (st2, .err e)
  | (st2, none) =>
      match flookup st2.fs (version_json_file version_id) with
      | some (.version version_data) => resolveFromData sha1 net version_id version_data st2
      | some _ => (st2, .err .malformed)
      | none => (st2, .err .ioError)

/-- Lines 76-80 of `ensure_version_installed`: parse the manifest and
look the id up by exact match; absence raises naming the requested
id. -/
def afterManifest (sha1 : FileData → String) (net : String → Option FileData)
    (version_id : String) (st1 : St) : St × ResolveResult :=
  match flookup st1.fs version_manifest_path with
  | some (.manifest versions) =>
      match versions.find? (fun v => v.id == version_id) with
      | none => (st1, .err (.versionNotFound version_id))
      | some version_info => resolveFromInfo sha1 net version_id version_info st1
  | some _ => (st1, .err .malformed)
  | none => (st1, .err .ioError)

/-- `ensure_version_installed(version_id)` (lines 72-120): ensure the
manifest is present (fetch once if absent, no hash), then resolve the
version and all its artifacts through the stages above. -/
def ensure_version_installed (sha1 : FileData → String) (net : String → Option FileData)
    (version_id : String) (st : St) : St × ResolveResult :=
  match (if flookup st.fs version_manifest_path = none
         then proxy_download sha1 net manifest_url version_manifest_path none st
         else (st, none)) with
  | (st1, some e) => (st1, .err e)
  | (st1, none) => afterManifest sha1 net version_id st1

/-- Validity of a single resolved artifact, as the spec's invariant
reads: present, and matching the declared hash when one is declared. -/
def artifactValid (sha1 : FileData → String) (fs : FS) (dest : String)
    (expected_hash : Option String) : Bool :=
  match flookup fs dest with
  | some d =>
      match expected_hash with
      | some h => decide (sha1 d = h)
      | none => true
  | none => false

/-- Validity of everything one library entry makes `resolve` touch. -/
def libValid (sha1 : FileData → String) (fs : FS) (lib : Library) : Bool :=
  (match lib.artifact with
   | some a => artifactValid sha1 fs (pathJoin LIBRARIES_DIR a.path) a.sha1
   | none => true) &&
  lib.classifiers.all (fun c =>
    !(hasNatives c.1) || artifactValid sha1 fs (pathJoin LIBRARIES_DIR c.2.path) c.2.sha1)

/-- The state of affairs after a successful `resolve(v)`: the cached
manifest, descriptor and asset index parse, the manifest knows the id,
and every artifact with a declared hash is hash-valid on disk while
every artifact without one is present. -/
def allValid (sha1 : FileData → String) (vid : String) (fs : FS) : Bool :=
  match flookup fs version_manifest_path with
  | some (.manifest versions) =>
      match versions.find? (fun v => v.id == vid) with
      | some _ =>
          match flookup fs (version_json_file vid) with
          | some (.version vd) =>
              artifactValid sha1 fs (client_jar_path vid) vd.client.sha1 &&
              vd.libraries.all (libValid sha1 fs) &&
              artifactValid sha1 fs (index_file_path vid) vd.assetIndex.sha1 &&
              (match flookup fs (index_file_path vid) with
               | some (.assetIndex objects) =>
                   objects.all (fun o =>
                     artifactValid sha1 fs (asset_obj_path o.2.hash) (some o.2.hash))
               | _ => false)
          | _ => false
      | none => false
  | _ => false

/-- The `cp` list built by `build_classpath` (lines 123-132): starts
with the version's own jar, then appends one path per library entry
that declares a plain artifact, in descriptor order. -/
def build_classpath_list (version_data : VersionData) (version_id : String) : List String :=
  version_data.libraries.foldl
    (fun cp lib =>
      match lib.artifact with
      | some a => cp ++ [pathJoin LIBRARIES_DIR a.path]
      | none => cp)
    [client_jar_path version_id]

/-- `build_classpath` (line 134): the list joined with ":" — the
source comment reads "return macOS/Linux separator". -/
def build_classpath (version_data : VersionData) (version_id : String) : String :=
  String.intercalate ":" (build_classpath_list version_data version_id)

/-- The spec's characterization of the classpath sequence: the client
jar first, then one path per library entry that declares a plain
artifact, in descriptor order, entries declaring only native
classifiers excluded. -/
def classpath_spec (version_data : VersionData) (version_id : String) : List String :=
  client_jar_path version_id ::
    version_data.libraries.filterMap
      (fun lib => lib.artifact.map (fun a => pathJoin LIBRARIES_DIR a.path))

def PROFILES_FILE : String := pathJoin MINECRAFT_DIR "launcher_profiles.json"

/-- `save_profiles(profiles)` (lines 173-176): write a document with a
freshly generated random client token and the given profiles mapping,
fully rewriting the stored file. The `uuid.uuid4()` randomness is
modelled by the `freshToken` parameter; the existing document on disk
is never read. -/
def save_profiles (freshToken : String) (profiles : List (String × Profile)) (fs : FS) : FS :=
  fwrite fs PROFILES_FILE (.profilesDoc freshToken profiles)

/-- The client token currently stored in the profile document. -/
def storedClientToken (fs : FS) : Option String :=
  match flookup fs PROFILES_FILE with
  | some (.profilesDoc t _) => some t
  | _ => none

/- Concrete instances exercising the development. -/

/-- A digest function for concrete runs: every content hashes to "H". -/
def sha1C : FileData → String := fun _ => "H"

/-- A digest function distinguishing the stale cached bytes (`raw [0]`,
digest "A") from everything else (digest "B"). -/
def sha1D : FileData → String := fun d => if d = .raw [0] then "A" else "B"

def vd0 : VersionData :=
  { client := { url := "CURL", sha1 := some "H" },
    libraries := [],
    assetIndex := { url := "AURL", sha1 := some "H" },
    mainClassName := "Main" }

/-- A network serving a one-version manifest and the artifacts of
`vd0`. -/
def net0 : String → Option FileData := fun u =>
  if u = PROXY_BASE ++ manifest_url then some (.manifest [{ id := "1.0", url := "VURL" }])
  else if u = PROXY_BASE ++ "VURL" then some (.version vd0)
  else if u = PROXY_BASE ++ "CURL" then some (.raw [1])
  else if u = PROXY_BASE ++ "AURL" then some (.assetIndex [])
  else none

def emptyNatDir : NatDir := { dirs := [], files := [] }

def st0 : St := { fs := [], natives := emptyNatDir, reqs := [] }

/-- The state after a first successful `resolve("1.0")` from scratch. -/
def st1 : St := (ensure_version_installed sha1C net0 "1.0" st0).1

/-- The spec's flattening example: an archive holding
`foo/bar/libX.so`. -/
def exampleEntries : List (List String × List Nat) := [(["foo", "bar", "libX.so"], [7])]

def exampleFS : FS := [("bundle.jar", .zip exampleEntries)]

/-- A descriptor with one plain-artifact library, used to compare the
produced classpath string against the platform-separator reading. -/
def vdX : VersionData :=
  { client := { url := "cu", sha1 := none },
    libraries :=
      [{ artifact := some { path := "a.jar", url := "au", sha1 := none }, classifiers := [] }],
    assetIndex := { url := "iu", sha1 := none },
    mainClassName := "M" }

/- Lemmas about the path-keyed maps. -/

theorem flookup_fwrite_self (fs : FS) (p : String) (d : FileData) :
    flookup (fwrite fs p d) p = some d := by
  simp [fwrite, flookup]

theorem flookup_ferase_ne (fs : FS) (p q : String) (h : q ≠ p) :
    flookup (ferase fs p) q = flookup fs q := by
  induction fs with
  | nil => rfl
  | cons e rest ih =>
      by_cases he : e.1 = p
      · simp only [ferase, if_pos he, ih, flookup]
        rw [if_neg (fun hh => h (hh.symm.trans he))]
      · simp only [ferase, if_neg he, flookup]
        rw [ih]

theorem flookup_fwrite_ne (fs : FS) (p q : String) (d : FileData) (h : q ≠ p) :
    flookup (fwrite fs p d) q = flookup fs q := by
  simp only [fwrite, flookup]
  rw [if_neg (fun hh => h hh.symm), flookup_ferase_ne _ _ _ h]

/-- C1 counterexample: with a stale cached file whose digest "A"
mismatches the declared hash "C", `fetch` re-downloads but returns
success with the served bytes (digest "B") without any integrity
check — success does not imply the file matches the declared hash, and
no `HashMismatchError` arises. -/
theorem fetch_success_despite_mismatch :
    (proxy_download sha1D (fun _ => some (.raw [5])) "u" "f" (some "C")
        { fs := [("f", FileData.raw [0])], natives := emptyNatDir, reqs := [] }).2 = none ∧
    flookup (proxy_download sha1D (fun _ => some (.raw [5])) "u" "f" (some "C")
        { fs := [("f", FileData.raw [0])], natives := emptyNatDir, reqs := [] }).1.fs "f" =
      some (.raw [5]) ∧
    sha1D (.raw [5]) ≠ "C" := by decide

/-- C1 (amended): when the pre-existing file at `dest` mismatches the
declared hash, `fetch` does re-download (a request is issued and the
stale bytes are replaced by the response body) and does not return
success with stale content; but the downloaded bytes are written and
success is returned without any integrity check, whatever the body's
digest, and no `HashMismatchError` is ever raised. -/
theorem fetch_redownloads_without_verification (sha1 : FileData → String)
    (net : String → Option FileData) (url dest h : String) (st : St) (d body : FileData)
    (hexists : flookup st.fs dest = some d) (hmis : sha1 d ≠ h)
    (hnet : net (PROXY_BASE ++ url) = some body) :
    proxy_download sha1 net url dest (some h) st =
      ({ st with fs := fwrite st.fs dest body,
                 reqs := st.reqs ++ [PROXY_BASE ++ url] }, none) := by
  unfold proxy_download
  rw [hexists]
  simp only [if_neg hmis]
  unfold proxy_fetch
  rw [hnet]

theorem fetch_redownloads_without_verification_witness :
    proxy_download sha1D (fun _ => some (.raw [5])) "u" "f" (some "C")
        { fs := [("f", FileData.raw [0])], natives := emptyNatDir, reqs := [] } =
      ({ fs := fwrite [("f", FileData.raw [0])] "f" (.raw [5]), natives := emptyNatDir,
         reqs := [PROXY_BASE ++ "u"] }, none) :=
  fetch_redownloads_without_verification sha1D (fun _ => some (.raw [5])) "u" "f" "C"
    { fs := [("f", FileData.raw [0])], natives := emptyNatDir, reqs := [] }
    (.raw [0]) (.raw [5]) (by decide) (by decide) rfl

/-- C6: if `dest` exists and the declared hash matches the recomputed
digest, or `dest` exists and no hash is declared (whatever the cached
content), `fetch` returns success with no state change and no network
request. -/
theorem fetch_cached_no_network (sha1 : FileData → String) (net : String → Option FileData)
    (url dest : String) (st : St) (d : FileData)
    (hexists : flookup st.fs dest = some d) (eh : Option String)
    (hok : eh = none ∨ ∃ h, eh = some h ∧ sha1 d = h) :
    proxy_download sha1 net url dest eh st = (st, none) := by
  unfold proxy_download
  rw [hexists]
  rcases hok with h0 | ⟨h, heq, hh⟩
  · rw [h0]
  · rw [heq]
    simp [hh]

theorem fetch_cached_no_network_witness :
    proxy_download sha1C net0 "u" "f" (some "H")
        { fs := [("f", FileData.raw [])], natives := emptyNatDir, reqs := [] } =
      ({ fs := [("f", FileData.raw [])], natives := emptyNatDir, reqs := [] }, none) ∧
    proxy_download sha1C net0 "u" "f" none
        { fs := [("f", FileData.raw [])], natives := emptyNatDir, reqs := [] } =
      ({ fs := [("f", FileData.raw [])], natives := emptyNatDir, reqs := [] }, none) :=
  ⟨fetch_cached_no_network sha1C net0 "u" "f"
      { fs := [("f", FileData.raw [])], natives := emptyNatDir, reqs := [] }
      (.raw []) (by decide) (some "H") (Or.inr ⟨"H", rfl, rfl⟩),
   fetch_cached_no_network sha1C net0 "u" "f"
      { fs := [("f", FileData.raw [])], natives := emptyNatDir, reqs := [] }
      (.raw []) (by decide) none (Or.inl rfl)⟩

/-- C9: when `fetch` must download (here: the pre-existing file
mismatches the declared hash) and the HTTP response is an error status,
the network error is raised before the destination is opened for
writing: the file system is unchanged and the pre-existing file at
`dest` keeps its bytes. -/
theorem fetch_error_status_preserves_dest (sha1 : FileData → String)
    (net : String → Option FileData) (url dest h : String) (st : St) (d : FileData)
    (hexists : flookup st.fs dest = some d) (hmis : sha1 d ≠ h)
    (hnet : net (PROXY_BASE ++ url) = none) :
    proxy_download sha1 net url dest (some h) st =
      ({ st with reqs := st.reqs ++ [PROXY_BASE ++ url] }, some .networkError) ∧
    flookup (proxy_download sha1 net url dest (some h) st).1.fs dest = some d := by
  have hmain : proxy_download sha1 net url dest (some h) st =
      ({ st with reqs := st.reqs ++ [PROXY_BASE ++ url] }, some .networkError) := by
    unfold proxy_download
    rw [hexists]
    simp only [if_neg hmis]
    unfold proxy_fetch
    rw [hnet]
  exact ⟨hmain, by rw [hmain]; exact hexists⟩

theorem fetch_error_status_preserves_dest_witness :
    proxy_download sha1D (fun _ => none) "u" "f" (some "C")
        { fs := [("f", FileData.raw [0])], natives := emptyNatDir, reqs := [] } =
      ({ fs := [("f", FileData.raw [0])], natives := emptyNatDir,
         reqs := [PROXY_BASE ++ "u"] }, some .networkError) :=
  (fetch_error_status_preserves_dest sha1D (fun _ => none) "u" "f" "C"
    { fs := [("f", FileData.raw [0])], natives := emptyNatDir, reqs := [] }
    (.raw [0]) (by decide) (by decide) rfl).1

/-- C8: every save fully rewrites the stored document with the freshly
generated random token, independently of the token previously on disk;
two successive saves of the same profiles with distinct fresh tokens
store distinct client tokens. -/
theorem save_profiles_fresh_token (t1 t2 : String) (ps : List (String × Profile)) (fs : FS)
    (hfresh : t1 ≠ t2) :
    storedClientToken (save_profiles t1 ps fs) = some t1 ∧
    storedClientToken (save_profiles t2 ps (save_profiles t1 ps fs)) = some t2 ∧
    storedClientToken (save_profiles t2 ps (save_profiles t1 ps fs)) ≠
      storedClientToken (save_profiles t1 ps fs) ∧
    flookup (save_profiles t2 ps (save_profiles t1 ps fs)) PROFILES_FILE =
      some (.profilesDoc t2 ps) := by
  have h1 : storedClientToken (save_profiles t1 ps fs) = some t1 := by
    unfold storedClientToken save_profiles
    rw [flookup_fwrite_self]
  have h2 : storedClientToken (save_profiles t2 ps (save_profiles t1 ps fs)) = some t2 := by
    unfold storedClientToken save_profiles
    rw [flookup_fwrite_self]
  refine ⟨h1, h2, ?_, ?_⟩
  · rw [h1, h2]
    exact fun hh => hfresh (Option.some.inj hh).symm
  · unfold save_profiles
    rw [flookup_fwrite_self]

theorem save_profiles_fresh_token_witness :
    storedClientToken (save_profiles "tok2" [] (save_profiles "tok1" [] [])) = some "tok2" :=
  (save_profiles_fresh_token "tok1" "tok2" [] [] (by decide)).2.1

/- Classpath. -/

theorem classpath_foldl (libs : List Library) (cp : List String) :
    libs.foldl
        (fun cp lib =>
          match lib.artifact with
          | some a => cp ++ [pathJoin LIBRARIES_DIR a.path]
          | none => cp)
        cp =
      cp ++ libs.filterMap (fun lib => lib.artifact.map (fun a => pathJoin LIBRARIES_DIR a.path)) := by
  induction libs generalizing cp with
  | nil => simp
  | cons lib rest ih =>
      cases ha : lib.artifact with
      | none => simp [List.foldl, ha, ih, List.filterMap_cons]
      | some a => simp [List.foldl, ha, ih, List.filterMap_cons]

theorem build_classpath_list_eq_spec (version_data : VersionData) (version_id : String) :
    build_classpath_list version_data version_id = classpath_spec version_data version_id := by
  unfold build_classpath_list classpath_spec
  rw [classpath_foldl]
  rfl

/-- C3: the `cp` list is exactly the version's own client jar followed
by one path per library entry that declares a plain artifact, in
descriptor order, entries declaring only native classifiers (no plain
artifact) excluded. -/
theorem build_classpath_order (version_data : VersionData) (version_id : String) :
    build_classpath_list version_data version_id = classpath_spec version_data version_id :=
  build_classpath_list_eq_spec version_data version_id

/-- C4 counterexample: `build_classpath` is not joined with the path
separator of a platform whose separator is ";" — the join is a
hard-coded ":". -/
theorem build_classpath_not_platform_separator :
    build_classpath vdX "v" ≠ String.intercalate ";" (classpath_spec vdX "v") := by decide

/-- C4 (amended): the classpath sequence is joined with ":" (the
macOS/Linux path-list separator) to form the handed-over classpath
string, regardless of the platform the launcher runs on. -/
theorem build_classpath_posix_separator (version_data : VersionData) (version_id : String) :
    build_classpath version_data version_id =
      String.intercalate ":" (classpath_spec version_data version_id) := by
  unfold build_classpath
  rw [build_classpath_list_eq_spec]

/- Native extraction. -/

theorem ndLookup_ndWrite_self (files : List (List String × List Nat)) (p : List String)
    (b : List Nat) : ndLookup (ndWrite files p b) p = some b := by
  simp [ndWrite, ndLookup]

theorem ndLookup_ndErase_ne (files : List (List String × List Nat)) (p q : List String)
    (h : q ≠ p) : ndLookup (ndErase files p) q = ndLookup files q := by
  induction files with
  | nil => rfl
  | cons e rest ih =>
      by_cases he : e.1 = p
      · simp only [ndErase, if_pos he, ih, ndLookup]
        rw [if_neg (fun hh => h (hh.symm.trans he))]
      · simp only [ndErase, if_neg he, ndLookup]
        rw [ih]

theorem ndLookup_ndWrite_ne (files : List (List String × List Nat)) (p q : List String)
    (b : List Nat) (h : q ≠ p) : ndLookup (ndWrite files p b) q = ndLookup files q := by
  simp only [ndWrite, ndLookup]
  rw [if_neg (fun hh => h hh.symm), ndLookup_ndErase_ne _ _ _ h]

/-- What one loop iteration leaves at a flat (single-component) path:
the entry's bytes exactly when the entry matches a native suffix and
has that base name, and the previous content otherwise. -/
theorem extractOne_flat (nd : NatDir) (e : List String × List Nat) (s : String) :
    ndLookup (extractOne nd e).files [s] =
      if isNative e.1 = true ∧ basename e.1 = s then some e.2
      else ndLookup nd.files [s] := by
  unfold extractOne
  by_cases hn : isNative e.1 = true
  · rw [if_pos hn]
    by_cases hs : basename e.1 = s
    · rw [if_pos ⟨hn, hs⟩, ← hs]
      exact ndLookup_ndWrite_self _ _ _
    · rw [if_neg (fun hc => hs hc.2)]
      have h1 : [s] ≠ [basename e.1] := by
        intro hh
        injection hh with hh1 _
        exact hs hh1.symm
      have h2 : [s] ≠ e.1 := by
        intro hh
        apply hs
        rw [← hh]
        rfl
      show ndLookup (ndWrite (ndErase (ndWrite nd.files e.1 e.2) e.1) [basename e.1] e.2) [s] =
        ndLookup nd.files [s]
      rw [ndLookup_ndWrite_ne _ _ _ _ h1, ndLookup_ndErase_ne _ _ _ h2,
        ndLookup_ndWrite_ne _ _ _ _ h2]
  · rw [if_neg hn, if_neg (fun hc => hn hc.1)]

theorem extractEntries_flat_preserved (entries : List (List String × List Nat)) :
    ∀ (nd : NatDir) (s : String), (∃ b, ndLookup nd.files [s] = some b) →
      ∃ b, ndLookup (extractEntries entries nd).files [s] = some b := by
  induction entries with
  | nil => intro nd s hb; exact hb
  | cons e rest ih =>
      intro nd s hb
      show ∃ b, ndLookup (extractEntries rest (extractOne nd e)).files [s] = some b
      apply ih
      rw [extractOne_flat]
      split
      · exact ⟨e.2, rfl⟩
      · exact hb

theorem extractEntries_flat_origin (entries : List (List String × List Nat)) :
    ∀ (nd : NatDir) (s : String) (b : List Nat),
      ndLookup (extractEntries entries nd).files [s] = some b →
        (∃ b0, ndLookup nd.files [s] = some b0) ∨
          ∃ e, e ∈ entries ∧ isNative e.1 = true ∧ basename e.1 = s := by
  induction entries with
  | nil => intro nd s b h; exact Or.inl ⟨b, h⟩
  | cons e rest ih =>
      intro nd s b h
      rcases ih (extractOne nd e) s b h with ⟨b0, hb0⟩ | ⟨e', he', hn, hs⟩
      · rw [extractOne_flat] at hb0
        by_cases hc : isNative e.1 = true ∧ basename e.1 = s
        · exact Or.inr ⟨e, List.mem_cons_self _ _, hc.1, hc.2⟩
        · rw [if_neg hc] at hb0
          exact Or.inl ⟨b0, hb0⟩
      · exact Or.inr ⟨e', List.mem_cons_of_mem _ he', hn, hs⟩

theorem extractEntries_flat_mem (entries : List (List String × List Nat)) :
    ∀ (nd : NatDir) (e : List String × List Nat), e ∈ entries → isNative e.1 = true →
      ∃ b, ndLookup (extractEntries entries nd).files [basename e.1] = some b := by
  induction entries with
  | nil => intro nd e he; cases he
  | cons e0 rest ih =>
      intro nd e he hn
      show ∃ b, ndLookup (extractEntries rest (extractOne nd e0)).files [basename e.1] = some b
      rcases List.mem_cons.mp he with rfl | hmem
      · apply extractEntries_flat_preserved rest
        refine ⟨e.2, ?_⟩
        rw [extractOne_flat, if_pos ⟨hn, rfl⟩]
      · exact ih (extractOne nd e0) e hmem hn

theorem extractOne_dirs_superset (nd : NatDir) (e : List String × List Nat) :
    ∀ d ∈ nd.dirs, d ∈ (extractOne nd e).dirs := by
  intro d hd
  unfold extractOne
  split
  · exact List.mem_append_right _ hd
  · exact hd

theorem extractOne_dirs_new (nd : NatDir) (e : List String × List Nat)
    (hn : isNative e.1 = true) : ∀ d ∈ properDirs e.1, d ∈ (extractOne nd e).dirs := by
  intro d hd
  unfold extractOne
  rw [if_pos hn]
  exact List.mem_append_left _ hd

theorem extractEntries_dirs_superset (entries : List (List String × List Nat)) :
    ∀ (nd : NatDir) (d : List String), d ∈ nd.dirs → d ∈ (extractEntries entries nd).dirs := by
  induction entries with
  | nil => intro nd d hd; exact hd
  | cons e rest ih =>
      intro nd d hd
      exact ih (extractOne nd e) d (extractOne_dirs_superset nd e d hd)

theorem extractEntries_dirs_mem (entries : List (List String × List Nat)) :
    ∀ (nd : NatDir) (e : List String × List Nat), e ∈ entries → isNative e.1 = true →
      ∀ d ∈ properDirs e.1, d ∈ (extractEntries entries nd).dirs := by
  induction entries with
  | nil => intro nd e he; cases he
  | cons e0 rest ih =>
      intro nd e he hn d hd
      show d ∈ (extractEntries rest (extractOne nd e0)).dirs
      rcases List.mem_cons.mp he with rfl | hmem
      · exact extractEntries_dirs_superset rest _ d (extractOne_dirs_new nd e hn d hd)
      · exact ih (extractOne nd e0) e hmem hn d hd

/-- C7: every archive entry whose name ends in one of the three
recognized shared-library suffixes ends up as a file named by its base
filename only, directly at the flat level of the target directory; any
file at the flat level either was already there or is the base name of
such an entry (entries without a matching suffix contribute nothing).
Concretely, an archive holding `foo/bar/libX.so` extracts to
`<target>/libX.so` and not to `<target>/foo/bar/libX.so`. -/
theorem extract_natives_flatten (fs : FS) (jar : String)
    (entries : List (List String × List Nat)) (nd : NatDir)
    (hjar : flookup fs jar = some (.zip entries)) :
    (∀ e, e ∈ entries → isNative e.1 = true →
        ∃ b, ndLookup (extract_natives fs jar nd).1.files [basename e.1] = some b) ∧
    (∀ s b, ndLookup (extract_natives fs jar nd).1.files [s] = some b →
        (∃ b0, ndLookup nd.files [s] = some b0) ∨
          ∃ e, e ∈ entries ∧ isNative e.1 = true ∧ basename e.1 = s) ∧
    (ndLookup (extract_natives exampleFS "bundle.jar" emptyNatDir).1.files ["libX.so"] =
        some [7] ∧
      ndLookup (extract_natives exampleFS "bundle.jar" emptyNatDir).1.files
          ["foo", "bar", "libX.so"] = none) := by
  have hres : extract_natives fs jar nd = (extractEntries entries nd, none) := by
    unfold extract_natives
    rw [hjar]
  refine ⟨?_, ?_, by decide⟩
  · intro e he hn
    rw [hres]
    exact extractEntries_flat_mem entries nd e he hn
  · intro s b h
    rw [hres] at h
    exact extractEntries_flat_origin entries nd s b h

theorem extract_natives_flatten_witness :
    ∃ b, ndLookup (extract_natives exampleFS "bundle.jar" emptyNatDir).1.files ["libX.so"] =
      some b :=
  (extract_natives_flatten exampleFS "bundle.jar" exampleEntries emptyNatDir (by decide)).1
    (["foo", "bar", "libX.so"], [7]) (by decide) (by decide)

/-- C10: each matching entry is first extracted under its full internal
path, so its intermediate directory skeleton is created inside the
target directory and the later move of the file does not remove it:
after extraction every proper prefix of a matching entry's path is a
directory inside the target, alongside the flat files — for the
`foo/bar/libX.so` archive, `<target>/foo/` and `<target>/foo/bar/`
remain next to `<target>/libX.so`. -/
theorem extract_natives_keeps_dir_skeleton (fs : FS) (jar : String)
    (entries : List (List String × List Nat)) (nd : NatDir)
    (hjar : flookup fs jar = some (.zip entries)) :
    (∀ e, e ∈ entries → isNative e.1 = true →
        ∀ d, d ∈ properDirs e.1 → d ∈ (extract_natives fs jar nd).1.dirs) ∧
    (["foo"] ∈ (extract_natives exampleFS "bundle.jar" emptyNatDir).1.dirs ∧
      ["foo", "bar"] ∈ (extract_natives exampleFS "bundle.jar" emptyNatDir).1.dirs ∧
      ndLookup (extract_natives exampleFS "bundle.jar" emptyNatDir).1.files ["libX.so"] =
        some [7]) := by
  have hres : extract_natives fs jar nd = (extractEntries entries nd, none) := by
    unfold extract_natives
    rw [hjar]
  refine ⟨?_, by decide⟩
  intro e he hn d hd
  rw [hres]
  exact extractEntries_dirs_mem entries nd e he hn d hd

theorem extract_natives_keeps_dir_skeleton_witness :
    ["foo", "bar"] ∈ (extract_natives exampleFS "bundle.jar" emptyNatDir).1.dirs :=
  (extract_natives_keeps_dir_skeleton exampleFS "bundle.jar" exampleEntries emptyNatDir
      (by decide)).1 (["foo", "bar", "libX.so"], [7]) (by decide) (by decide)
      ["foo", "bar"] (by decide)

/- Resolution. -/

/-- C5: when the requested id is absent from the consulted manifest,
`resolve` fails with the not-found error naming the requested id and
performs no artifact downloads beyond ensuring the manifest itself is
present: with a cached manifest the state is untouched, and with no
cached manifest the only request issued is the manifest fetch. -/
theorem resolve_version_not_found (sha1 : FileData → String) (net : String → Option FileData)
    (vid : String) (st : St) (versions : List ManifestEntry)
    (hfind : versions.find? (fun v => v.id == vid) = none) :
    (flookup st.fs version_manifest_path = some (.manifest versions) →
        ensure_version_installed sha1 net vid st = (st, .err (.versionNotFound vid))) ∧
    (flookup st.fs version_manifest_path = none →
        net (PROXY_BASE ++ manifest_url) = some (.manifest versions) →
        ensure_version_installed sha1 net vid st =
          ({ st with fs := fwrite st.fs version_manifest_path (.manifest versions),
                     reqs := st.reqs ++ [PROXY_BASE ++ manifest_url] },
            .err (.versionNotFound vid))) := by
  constructor
  · intro hm
    simp only [ensure_version_installed, hm, afterManifest]
    simp [hm, hfind]
  · intro hm hnet
    simp only [ensure_version_installed, hm, proxy_download, proxy_fetch, hnet, afterManifest]
    simp [flookup_fwrite_self, hfind]

theorem resolve_version_not_found_witness :
    ensure_version_installed sha1C net0 "1.0"
        { fs := [(version_manifest_path, FileData.manifest [{ id := "2.0", url := "U" }])],
          natives := emptyNatDir, reqs := [] } =
      ({ fs := [(version_manifest_path, FileData.manifest [{ id := "2.0", url := "U" }])],
         natives := emptyNatDir, reqs := [] }, .err (.versionNotFound "1.0")) :=
  (resolve_version_not_found sha1C net0 "1.0"
      { fs := [(version_manifest_path, FileData.manifest [{ id := "2.0", url := "U" }])],
        natives := emptyNatDir, reqs := [] }
      [{ id := "2.0", url := "U" }] (by decide)).1 (by decide)

/-- An artifact that is valid on disk makes `proxy_download` return
success immediately: no request, no state change. -/
theorem proxy_download_skip (sha1 : FileData → String) (net : String → Option FileData)
    (url dest : String) (eh : Option String) (st : St)
    (h : artifactValid sha1 st.fs dest eh = true) :
    proxy_download sha1 net url dest eh st = (st, none) := by
  cases hd : flookup st.fs dest with
  | none =>
      simp only [artifactValid, hd] at h
      exact Bool.noConfusion h
  | some d =>
      cases eh with
      | none => simp [proxy_download, hd]
      | some hsh =>
          simp only [artifactValid, hd, decide_eq_true_eq] at h
          simp [proxy_download, hd, h]

theorem classifiersStep_valid (sha1 : FileData → String) (net : String → Option FileData)
    (cs : List (String × Artifact)) :
    ∀ st : St, (∀ c, c ∈ cs → hasNatives c.1 = true →
        artifactValid sha1 st.fs (pathJoin LIBRARIES_DIR c.2.path) c.2.sha1 = true) →
      (classifiersStep sha1 net cs st).1.fs = st.fs ∧
        (classifiersStep sha1 net cs st).1.reqs = st.reqs := by
  induction cs with
  | nil => intro st h; exact ⟨rfl, rfl⟩
  | cons c rest ih =>
      intro st h
      by_cases hn : hasNatives c.1 = true
      · have hskip := proxy_download_skip sha1 net c.2.url (pathJoin LIBRARIES_DIR c.2.path)
          c.2.sha1 st (h c (List.mem_cons_self _ _) hn)
        rcases hx : extract_natives st.fs (pathJoin LIBRARIES_DIR c.2.path) st.natives with ⟨nd, e⟩
        cases e with
        | some err =>
            simp only [classifiersStep, if_pos hn, hskip, hx]
            trivial
        | none =>
            simp only [classifiersStep, if_pos hn, hskip, hx]
            exact ih { st with natives := nd }
              (fun c' hc' hn' => h c' (List.mem_cons_of_mem _ hc') hn')
      · simp only [classifiersStep, if_neg hn]
        exact ih st (fun c' hc' hn' => h c' (List.mem_cons_of_mem _ hc') hn')

theorem libStep_valid (sha1 : FileData → String) (net : String → Option FileData)
    (lib : Library) (st : St) (h : libValid sha1 st.fs lib = true) :
    (libStep sha1 net lib st).1.fs = st.fs ∧ (libStep sha1 net lib st).1.reqs = st.reqs := by
  unfold libValid at h
  rw [Bool.and_eq_true] at h
  obtain ⟨ha, hcs⟩ := h
  have hcs' : ∀ c, c ∈ lib.classifiers → hasNatives c.1 = true →
      artifactValid sha1 st.fs (pathJoin LIBRARIES_DIR c.2.path) c.2.sha1 = true := by
    intro c hc hn
    have hline := (List.all_eq_true.mp hcs) c hc
    rw [Bool.or_eq_true] at hline
    rcases hline with h1 | h2
    · rw [Bool.not_eq_true'] at h1
      rw [h1] at hn
      cases hn
    · exact h2
  cases hart : lib.artifact with
  | none =>
      simp only [libStep, hart]
      exact classifiersStep_valid sha1 net lib.classifiers st hcs'
  | some a =>
      rw [hart] at ha
      have hskip := proxy_download_skip sha1 net a.url (pathJoin LIBRARIES_DIR a.path)
        a.sha1 st ha
      simp only [libStep, hart, hskip]
      exact classifiersStep_valid sha1 net lib.classifiers st hcs'

theorem libsStep_valid (sha1 : FileData → String) (net : String → Option FileData)
    (libs : List Library) :
    ∀ st : St, (∀ lib, lib ∈ libs → libValid sha1 st.fs lib = true) →
      (libsStep sha1 net libs st).1.fs = st.fs ∧ (libsStep sha1 net libs st).1.reqs = st.reqs := by
  induction libs with
  | nil => intro st h; exact ⟨rfl, rfl⟩
  | cons lib rest ih =>
      intro st h
      rcases hstep : libStep sha1 net lib st with ⟨st', e⟩
      have hpres := libStep_valid sha1 net lib st (h lib (List.mem_cons_self _ _))
      rw [hstep] at hpres
      cases e with
      | some err =>
          simp only [libsStep, hstep]
          exact hpres
      | none =>
          simp only [libsStep, hstep]
          have hrest : ∀ lib', lib' ∈ rest → libValid sha1 st'.fs lib' = true := by
            intro l hl
            have : (st', (none : Option LauncherError)).1.fs = st.fs := hpres.1
            rw [show st'.fs = st.fs from this]
            exact h l (List.mem_cons_of_mem _ hl)
          have hr := ih st' hrest
          exact ⟨hr.1.trans hpres.1, hr.2.trans hpres.2⟩

theorem assetsStep_valid (sha1 : FileData → String) (net : String → Option FileData)
    (objs : List (String × AssetObj)) :
    ∀ st : St, (∀ o, o ∈ objs →
        artifactValid sha1 st.fs (asset_obj_path o.2.hash) (some o.2.hash) = true) →
      (assetsStep sha1 net objs st).1.fs = st.fs ∧
        (assetsStep sha1 net objs st).1.reqs = st.reqs := by
  induction objs with
  | nil => intro st h; exact ⟨rfl, rfl⟩
  | cons o rest ih =>
      intro st h
      have hskip := proxy_download_skip sha1 net (asset_obj_url o.2.hash) (asset_obj_path o.2.hash)
        (some o.2.hash) st (h o (List.mem_cons_self _ _))
      simp only [assetsStep, hskip]
      exact ih st (fun o' ho' => h o' (List.mem_cons_of_mem _ ho'))

/-- C2: immediately after a successful `resolve(v)`, a second
`resolve(v)` performs zero network requests (the request trace does not
grow, and the file system is untouched), provided every artifact with a
declared hash is hash-valid on disk and every artifact without one is
present (`allValid`, the state of affairs a successful resolve
leaves). -/
theorem resolve_second_call_no_requests (sha1 : FileData → String)
    (net : String → Option FileData) (vid : String) (s0 s : St) (vdr : VersionData)
    (h1 : ensure_version_installed sha1 net vid s0 = (s, .ok vdr))
    (h2 : allValid sha1 vid s.fs = true) :
    (ensure_version_installed sha1 net vid s).1.reqs = s.reqs ∧
    (ensure_version_installed sha1 net vid s).1.fs = s.fs := by
  unfold allValid at h2
  split at h2
  next versions heqm =>
    split at h2
    next vi heqf =>
      split at h2
      next vd heqv =>
        split at h2
        next objects heqo =>
          rw [Bool.and_eq_true, Bool.and_eq_true, Bool.and_eq_true] at h2
          obtain ⟨⟨⟨hclient, hlibs⟩, hidxv⟩, hobjs⟩ := h2
          have e1 : ensure_version_installed sha1 net vid s = afterManifest sha1 net vid s := by
            simp only [ensure_version_installed, heqm]
            simp
          have e2 : afterManifest sha1 net vid s = resolveFromInfo sha1 net vid vi s := by
            simp only [afterManifest]
            simp [heqm, heqf]
          have e3 : resolveFromInfo sha1 net vid vi s = resolveFromData sha1 net vid vd s := by
            simp only [resolveFromInfo]
            simp [heqv]
          rw [e1, e2, e3]
          have hskipc := proxy_download_skip sha1 net vd.client.url (client_jar_path vid)
            vd.client.sha1 s hclient
          rcases hls : libsStep sha1 net vd.libraries s with ⟨s4, e4⟩
          have hpres4 := libsStep_valid sha1 net vd.libraries s
            (fun lib hl => List.all_eq_true.mp hlibs lib hl)
          rw [hls] at hpres4
          cases e4 with
          | some err =>
              simp only [resolveFromData, hskipc, hls]
              exact ⟨hpres4.2, hpres4.1⟩
          | none =>
              have hfs4 : s4.fs = s.fs := hpres4.1
              have hreqs4 : s4.reqs = s.reqs := hpres4.2
              have hidxv4 : artifactValid sha1 s4.fs (index_file_path vid)
                  vd.assetIndex.sha1 = true := by
                rw [hfs4]
                exact hidxv
              have hskipi := proxy_download_skip sha1 net vd.assetIndex.url (index_file_path vid)
                vd.assetIndex.sha1 s4 hidxv4
              have heqo4 : flookup s4.fs (index_file_path vid) = some (.assetIndex objects) := by
                rw [hfs4]
                exact heqo
              rcases has : assetsStep sha1 net objects s4 with ⟨s6, e6⟩
              have hpres6 := assetsStep_valid sha1 net objects s4
                (fun o ho => by rw [hfs4]; exact List.all_eq_true.mp hobjs o ho)
              rw [has] at hpres6
              have hfs6 : s6.fs = s4.fs := hpres6.1
              have hreqs6 : s6.reqs = s4.reqs := hpres6.2
              cases e6 with
              | some err =>
                  simp only [resolveFromData, hskipc, hls, hskipi, resolveAssets, heqo4, has]
                  exact ⟨hreqs6.trans hreqs4, hfs6.trans hfs4⟩
              | none =>
                  simp only [resolveFromData, hskipc, hls, hskipi, resolveAssets, heqo4, has]
                  exact ⟨hreqs6.trans hreqs4, hfs6.trans hfs4⟩
        next hno => simp at h2
      next hno => simp at h2
    next heqf => simp at h2
  next hno => simp at h2

theorem resolve_second_call_no_requests_witness :
    (ensure_version_installed sha1C net0 "1.0" st1).1.reqs = st1.reqs ∧
    (ensure_version_installed sha1C net0 "1.0" st1).1.fs = st1.fs :=
  resolve_second_call_no_requests sha1C net0 "1.0" st0 st1 vd0 (by decide) (by decide)

end Launcher
